import Mathlib

/-!
A shallow embedding of the timing CPU pipeline (`src/cpu/simple/timing.cc`)
and the cache stage (`src/mem/cache/cache_impl.hh`) of this repository,
together with theorems checking the specification's claims against it.

External collaborators (tag store, miss queue, coherence engine, the
discrete-event scheduler) are represented by explicit inputs: each function
takes the collaborator results it consumes (lookup results, translation
faults, send acceptance) as parameters, and reports the calls it makes on
collaborators as an explicit action list.  C++ `assert` / null-dereference
failures are modelled by an `Option` result, `none` meaning the simulation
aborts.
-/

namespace M5

/-- Modelled from the spec: the Packet command alphabet
("command (Read/Write/Upgrade/Invalidate/Writeback/...)"); the Packet
component itself is not among the provided sources, only its users. -/
inductive Command where
  | ReadReq | WriteReq | WriteReqNoAck | ReadResp | WriteResp | Writeback
  | SoftPFReq | HardPFReq | SoftPFResp | HardPFResp
  | InvalidateReq | WriteInvalidateReq | UpgradeReq | ReadExReq | ReadExResp
  deriving DecidableEq, Repr

/-- Modelled from the spec: the read attribute of a packet command. -/
def Command.isRead : Command → Bool
  | .ReadReq | .ReadResp | .SoftPFReq | .HardPFReq
  | .SoftPFResp | .HardPFResp | .ReadExReq | .ReadExResp => true
  | _ => false

/-- Modelled from the spec: the write attribute of a packet command. -/
def Command.isWrite : Command → Bool
  | .WriteReq | .WriteReqNoAck | .WriteResp | .Writeback | .WriteInvalidateReq => true
  | _ => false

/-- Modelled from the spec: the invalidating attribute of a packet command
(invalidates, write-invalidates, upgrades and read-exclusives). -/
def Command.isInvalidate : Command → Bool
  | .InvalidateReq | .WriteInvalidateReq | .UpgradeReq | .ReadExReq | .ReadExResp => true
  | _ => false

/-- Modelled from the spec: whether the command is a response. -/
def Command.isResponse : Command → Bool
  | .ReadResp | .WriteResp | .SoftPFResp | .HardPFResp | .ReadExResp => true
  | _ => false

/-- Modelled from the spec: whether a request command expects a response
(fire-and-forget writebacks and plain invalidates do not). -/
def Command.needsResponse : Command → Bool
  | .ReadReq | .WriteReq | .SoftPFReq | .HardPFReq
  | .WriteInvalidateReq | .ReadExReq => true
  | _ => false

/-- Packet result codes (`Packet::Success` etc.). -/
inductive PResult where
  | Unknown | Success | BadAddress | Nacked
  deriving DecidableEq, Repr

/-- The transient packet flags named in the spec's data model:
Satisfied, Shared, NackedLine, SnoopCommit, CacheFill, NoAllocate. -/
structure PFlags where
  satisfied : Bool
  nackedLine : Bool
  sharedLine : Bool
  snoopCommit : Bool
  cacheFill : Bool
  noAllocate : Bool
  deriving DecidableEq, Repr

def noFlags : PFlags :=
  { satisfied := false, nackedLine := false, sharedLine := false,
    snoopCommit := false, cacheFill := false, noAllocate := false }

/-- A packet: command, address, size, flags, result, the owning request's
uncacheable attribute, the sender-state correlation token (an opaque
miss-entry identifier), and the attached data buffer (byte `i` of `data`
is the byte at address `addr + i`). -/
structure Pkt where
  cmd : Command
  addr : Nat
  size : Nat
  flags : PFlags
  result : PResult
  uncacheable : Bool
  senderState : Option Nat
  data : List Nat
  deriving DecidableEq, Repr

/-- Modelled from the spec: `Packet::intersect` — two transactions overlap
when their address ranges share at least one byte (`Packet` is not among
the provided sources). -/
def Pkt.intersect (p q : Pkt) : Bool :=
  decide (p.addr < q.addr + q.size) && decide (q.addr < p.addr + p.size)

/-- `p` covers every byte of `q`. -/
def covers (p q : Pkt) : Bool :=
  decide (p.addr ≤ q.addr) && decide (q.addr + q.size ≤ p.addr + p.size)

/-- A cache line as seen by the cache stage: coherence status plus the
line's data payload. -/
structure BlkD where
  status : Nat
  data : List Nat
  deriving DecidableEq, Repr

/-- A Miss Entry (MSHR): in-service flag, the outgoing packet representing
the request in flight, and the ordered target list of merged requests. -/
structure MSHR where
  inService : Bool
  pkt : Pkt
  targets : List Pkt
  deriving DecidableEq, Repr

/-- The coherence engine interface consumed by the cache stage, as the
spec describes it (a pure function set): `hasProtocol`, `allowFastWrites`,
`handleBusRequest (packet, line, missEntry) → (canSatisfyLocally,
newLineState)`, and `getNewState`. -/
structure Coherence where
  hasProtocol : Bool
  allowFastWrites : Bool
  handleBusRequest : Pkt → Option BlkD → Option MSHR → Bool × Nat
  getNewState : Pkt → Nat → Nat

end M5

namespace M5

/-! ### CPU timing pipeline (`src/cpu/simple/timing.cc`) -/

/-- `TimingSimpleCPU::Status`. -/
inductive CStat where
  | Idle | Running | IcacheRetry | IcacheWaitResponse
  | DcacheRetry | DcacheWaitResponse | SwitchedOut
  deriving DecidableEq, Repr

/-- The SimObject drain lifecycle states used by `drain`/`completeDrain`. -/
inductive SimState where
  | SRunning | Draining | Drained
  deriving DecidableEq, Repr

/-- The pipeline state the embedded functions read and write: CPU status,
the SimObject lifecycle state, the two held packets, and the stored drain
event (an opaque event identifier). -/
structure CpuState where
  status : CStat
  simState : SimState
  ifetchPkt : Option Pkt
  dcachePkt : Option Pkt
  drainEvent : Option Nat
  deriving DecidableEq, Repr

/-- Calls the pipeline makes on its collaborators, recorded in order. -/
inductive CpuAct where
  | sendIcache (p : Pkt)
  | sendDcache (p : Pkt)
  | recordUncached
  | advInst (fault : Option Nat)
  | advancePC (fault : Option Nat)
  | processDrain (ev : Nat)
  | schedTick (p : Pkt)
  deriving DecidableEq, Repr

/-- The packet built by `TimingSimpleCPU::read`
(`new Packet(req, ReadReq, Broadcast)` with a fresh dynamic buffer). -/
def mkReadPkt (addr size : Nat) (unc : Bool) : Pkt :=
  { cmd := Command.ReadReq, addr := addr, size := size, flags := noFlags,
    result := PResult.Unknown, uncacheable := unc, senderState := none,
    data := List.replicate size 0 }

/-- The packet built by `TimingSimpleCPU::write` (allocated, then filled
with the store data). -/
def mkWritePkt (addr size : Nat) (unc : Bool) (data : List Nat) : Pkt :=
  { cmd := Command.WriteReq, addr := addr, size := size, flags := noFlags,
    result := PResult.Unknown, uncacheable := unc, senderState := none,
    data := data }

/-- The fetch packet built by `TimingSimpleCPU::fetch` (a read of one
machine instruction into the caller-owned instruction buffer). -/
def mkIfetchPkt (addr : Nat) : Pkt :=
  { cmd := Command.ReadReq, addr := addr, size := 4, flags := noFlags,
    result := PResult.Unknown, uncacheable := false, senderState := none,
    data := List.replicate 4 0 }

/-- `TimingSimpleCPU::read` — translation outcome `fault` and the data
Link's `sendTiming` verdict `accept` are inputs; returns the fault handed
back to the caller, the new pipeline state, and the collaborator calls. -/
def readOp (st : CpuState) (addr size : Nat) (unc : Bool)
    (fault : Option Nat) (accept : Bool) :
    Option Nat × CpuState × List CpuAct :=
  let uncActs := if unc then [CpuAct.recordUncached] else []
  match fault with
  | none =>
    let pkt := mkReadPkt addr size unc
    if accept then
      (none, { st with status := CStat.DcacheWaitResponse, dcachePkt := none },
       [CpuAct.sendDcache pkt] ++ uncActs)
    else
      (none, { st with status := CStat.DcacheRetry, dcachePkt := some pkt },
       [CpuAct.sendDcache pkt] ++ uncActs)
  | some f => (some f, st, uncActs)

/-- `TimingSimpleCPU::write` — `locked`/`lockedOk` model the locked-write
check (`handleLockedWrite`); `none` models the `assert(dcache_pkt == NULL)`
failure. -/
def writeOp (st : CpuState) (addr size : Nat) (unc : Bool) (data : List Nat)
    (fault : Option Nat) (locked lockedOk accept : Bool) :
    Option (Option Nat × CpuState × List CpuAct) :=
  let uncActs := if unc then [CpuAct.recordUncached] else []
  match fault with
  | none =>
    if st.dcachePkt.isSome then none
    else
      let pkt := mkWritePkt addr size unc data
      let doAccess := !locked || lockedOk
      if doAccess then
        if accept then
          some (none,
            { st with status := CStat.DcacheWaitResponse, dcachePkt := none },
            [CpuAct.sendDcache pkt] ++ uncActs)
        else
          some (none,
            { st with status := CStat.DcacheRetry, dcachePkt := some pkt },
            [CpuAct.sendDcache pkt] ++ uncActs)
      else
        some (none, { st with dcachePkt := some pkt }, uncActs)
  | some f => some (some f, st, uncActs)

/-- `TimingSimpleCPU::fetch` — builds the fetch packet, then either offers
it on the instruction Link (`accept` is the Link's verdict) or, on a setup
fault, advances directly to the next instruction via `advanceInst`. -/
def fetchOp (st : CpuState) (fetchAddr : Nat) (fault : Option Nat)
    (accept : Bool) : CpuState × List CpuAct :=
  let pkt := mkIfetchPkt fetchAddr
  match fault with
  | none =>
    if accept then
      ({ st with status := CStat.IcacheWaitResponse, ifetchPkt := none },
       [CpuAct.sendIcache pkt])
    else
      ({ st with status := CStat.IcacheRetry, ifetchPkt := some pkt },
       [CpuAct.sendIcache pkt])
  | some f => ({ st with ifetchPkt := some pkt }, [CpuAct.advInst (some f)])

/-- `TimingSimpleCPU::DcachePort::recvRetry` — re-offers the held packet;
`accept` is the peer's verdict on the re-offer.  Returns the new state and
the packet that was offered; `none` models the two assertion failures. -/
def dcacheRecvRetry (st : CpuState) (accept : Bool) :
    Option (CpuState × Pkt) :=
  match st.dcachePkt with
  | none => none
  | some p =>
    if st.status ≠ CStat.DcacheRetry then none
    else if accept then
      some ({ st with status := CStat.DcacheWaitResponse, dcachePkt := none }, p)
    else some (st, p)

/-- `TimingSimpleCPU::IcachePort::recvRetry`. -/
def icacheRecvRetry (st : CpuState) (accept : Bool) :
    Option (CpuState × Pkt) :=
  match st.ifetchPkt with
  | none => none
  | some p =>
    if st.status ≠ CStat.IcacheRetry then none
    else if accept then
      some ({ st with status := CStat.IcacheWaitResponse, ifetchPkt := none }, p)
    else some (st, p)

/-- `TimingSimpleCPU::drain` — returns the drain count (0 when already
drained, 1 when deferred) and the new state. -/
def drainOp (st : CpuState) (ev : Nat) : Nat × CpuState :=
  if st.status = CStat.Idle ∨ st.status = CStat.Running
      ∨ st.status = CStat.SwitchedOut then
    (0, { st with simState := SimState.Drained })
  else
    (1, { st with simState := SimState.Draining, drainEvent := some ev })

/-- `TimingSimpleCPU::completeDrain` — signals the stored drain event;
`none` models the crash on a missing event. -/
def completeDrain (st : CpuState) : Option (CpuState × List CpuAct) :=
  match st.drainEvent with
  | none => none
  | some e =>
    some ({ st with simState := SimState.Drained }, [CpuAct.processDrain e])

/-- `TimingSimpleCPU::completeDataAccess` — `accFault` is the outcome of
the instruction's `completeAcc` callback; `none` models the assertion
failures on an unexpected result or status. -/
def completeDataAccess (st : CpuState) (pkt : Pkt) (accFault : Option Nat) :
    Option (CpuState × List CpuAct) :=
  if pkt.result ≠ PResult.Success then none
  else if st.status ≠ CStat.DcacheWaitResponse then none
  else
    let st1 := { st with status := CStat.Running }
    if st1.simState = SimState.Draining then
      (completeDrain st1).map
        (fun r => (r.1, CpuAct.advancePC accFault :: r.2))
    else some (st1, [CpuAct.advInst accFault])

/-- The instruction-execution outcomes `completeIfetch` consumes from the
decode/execute collaborator: whether the instruction is a memory
reference, the status and held data packet produced by `initiateAcc`
(which issues `read`/`write` internally), and the fault values returned
by `initiateAcc`, `completeAcc` and `execute`. -/
structure ExecInfo where
  isMemRef : Bool
  initStatus : CStat
  initDcachePkt : Option Pkt
  initFault : Option Nat
  accFault : Option Nat
  execFault : Option Nat
  deriving Repr

/-- `TimingSimpleCPU::completeIfetch`. -/
def completeIfetch (st : CpuState) (pkt : Pkt) (ex : ExecInfo) :
    Option (CpuState × List CpuAct) :=
  if pkt.result ≠ PResult.Success then none
  else if st.status ≠ CStat.IcacheWaitResponse then none
  else
    let st1 := { st with status := CStat.Running }
    if st1.simState = SimState.Draining then completeDrain st1
    else if ex.isMemRef then
      let st2 :=
        { st1 with status := ex.initStatus, dcachePkt := ex.initDcachePkt }
      if st2.status ≠ CStat.Running then
        if (st2.status = CStat.DcacheWaitResponse
              ∨ st2.status = CStat.DcacheRetry) ∧ ex.initFault = none then
          some (st2, [])
        else none
      else
        match ex.initFault with
        | none =>
          match st2.dcachePkt with
          | some _ => some ({ st2 with dcachePkt := none },
                            [CpuAct.advInst ex.accFault])
          | none => none
        | some f => some (st2, [CpuAct.advInst (some f)])
    else some (st1, [CpuAct.advInst ex.execFault])

/-- `TimingSimpleCPU::DcachePort::recvTiming` — `nextNow` is whether the
CPU's next clock edge is the current tick (in which case completion runs
immediately; otherwise it is scheduled).  The returned Bool is the value
`recvTiming` gives back to the Link. -/
def dcacheRecvTiming (st : CpuState) (pkt : Pkt) (nextNow : Bool)
    (accFault : Option Nat) : Option (Bool × CpuState × List CpuAct) :=
  if pkt.cmd.isResponse then
    if nextNow then
      (completeDataAccess st pkt accFault).map (fun r => (true, r.1, r.2))
    else some (true, st, [CpuAct.schedTick pkt])
  else some (true, st, [])

/-- `TimingSimpleCPU::IcachePort::recvTiming`. -/
def icacheRecvTiming (st : CpuState) (pkt : Pkt) (nextNow : Bool)
    (ex : ExecInfo) : Option (Bool × CpuState × List CpuAct) :=
  if pkt.cmd.isResponse then
    if nextNow then
      (completeIfetch st pkt ex).map (fun r => (true, r.1, r.2))
    else some (true, st, [CpuAct.schedTick pkt])
  else some (true, st, [])

end M5

namespace M5

/-! ### Cache stage (`src/mem/cache/cache_impl.hh`) -/

/-- Calls `Cache::snoop` makes on its collaborators, in order. -/
inductive SnAct where
  | propInv
  | nack
  | addTarget (a : Nat)
  | supplyData
  | respondSnoop
  | markInService
  | snoopUpdate (ns : Nat) (withData : Bool)
  deriving DecidableEq, Repr

/-- The lookup results `Cache::snoop` obtains for the snooped line:
`tags->findBlock`, `missQueue->findMSHR(blk_addr)` and
`missQueue->findWrites(blk_addr, writebacks)`. -/
structure SnInput where
  blk : Option BlkD
  mshr : Option MSHR
  writebacks : List MSHR
  deriving Repr

/-- The tail of `Cache::snoop`: delegate to
`coherence->handleBusRequest`; on a satisfy, update the tags with the
packet's data and respond to the snoop, otherwise just update the tags. -/
def snoopTail (coh : Coherence) (blk : Option BlkD) (pkt : Pkt)
    (mshrArg : Option MSHR) (acts : List SnAct) :
    Option (Pkt × List SnAct) :=
  let r := coh.handleBusRequest pkt blk mshrArg
  if r.1 then
    some (pkt, acts ++ [SnAct.snoopUpdate r.2 true, SnAct.respondSnoop])
  else some (pkt, acts ++ [SnAct.snoopUpdate r.2 false])

/-- The writeback-buffer loop of `Cache::snoop`: walk the matching
writeback entries; the first cacheable one supplies data to a read snoop
(satisfied + shared, copy the overlapping line bytes, respond) and is
marked in service by an invalidating snoop, then the function returns.
If every entry is uncacheable the loop falls through, leaving the local
`mshr` variable pointing at the last entry examined (`Sum.inr`);
`Sum.inl none` models the assertion failures. -/
def snoopWbs (blkSize : Nat) (pkt : Pkt) (acts : List SnAct) :
    List MSHR → Option MSHR → Sum (Option (Pkt × List SnAct)) (Option MSHR)
  | [], cur => Sum.inr cur
  | wb :: rest, _ =>
    if wb.pkt.uncacheable then snoopWbs blkSize pkt acts rest (some wb)
    else
      let off := pkt.addr % blkSize
      if pkt.cmd.isRead then
        if pkt.flags.satisfied then Sum.inl none
        else if !(decide (off < blkSize) && decide (pkt.size ≤ blkSize)
                  && decide (off + pkt.size ≤ blkSize)) then Sum.inl none
        else
          let p1 := { pkt with
            flags := { pkt.flags with satisfied := true, sharedLine := true },
            data := (List.range pkt.size).map
                      (fun i => wb.pkt.data.getD (off + i) 0) }
          let acts1 := acts ++ [SnAct.supplyData, SnAct.respondSnoop]
          if pkt.cmd.isInvalidate then
            Sum.inl (some (p1, acts1 ++ [SnAct.markInService]))
          else Sum.inl (some (p1, acts1))
      else if pkt.cmd.isInvalidate then
        Sum.inl (some (pkt, acts ++ [SnAct.markInService]))
      else Sum.inl (some (pkt, acts))

/-- The part of `Cache::snoop` after the in-service Miss Entry check:
the writeback-buffer scan, then the coherence engine's bus-request
handler (with the possibly reassigned `mshr` variable). -/
def snoopAfterMshr (blkSize : Nat) (coh : Coherence) (inp : SnInput)
    (pkt : Pkt) (acts : List SnAct) : Option (Pkt × List SnAct) :=
  match snoopWbs blkSize pkt acts inp.writebacks inp.mshr with
  | Sum.inl r => r
  | Sum.inr cur => snoopTail coh inp.blk pkt cur acts

/-- `Cache::snoop`.  Returns the packet as left by the snoop path and the
collaborator calls made; `none` models an assertion failure. -/
def snoop (blkSize : Nat) (coh : Coherence) (inp : SnInput) (pkt : Pkt) :
    Option (Pkt × List SnAct) :=
  if pkt.uncacheable then some (pkt, [])
  else
    let acts := [SnAct.propInv]
    if coh.hasProtocol || pkt.cmd.isInvalidate then
      match inp.mshr with
      | some m =>
        if m.inService then
          if (m.pkt.cmd.isInvalidate || !m.pkt.flags.cacheFill)
              && !(decide (pkt.cmd = Command.InvalidateReq))
              && !(decide (pkt.cmd = Command.WriteInvalidateReq)) then
            if pkt.flags.satisfied then none
            else
              some ({ pkt with flags :=
                        { pkt.flags with satisfied := true, nackedLine := true } },
                    acts ++ [SnAct.nack])
          else some (pkt, acts ++ [SnAct.addTarget pkt.addr])
        else snoopAfterMshr blkSize coh inp pkt acts
      | none => snoopAfterMshr blkSize coh inp pkt acts
    else snoopTail coh inp.blk pkt inp.mshr acts

/-- Calls `Cache::access` makes on its collaborators, in order. -/
inductive AcAct where
  | pfHandleMiss
  | warnFastAlloc
  | fastAllocate
  | doWriteback
  | respond
  | exitSim
  | handleMiss
  deriving DecidableEq, Repr

/-- The collaborator results `Cache::access` consumes: the tag store's
`handleAccess` result (hit block and evicted writebacks), the writebacks
produced by a fast-allocate `handleFill`, the outstanding-miss lookup,
and the cache's `prefetchAccess` / `missCount` configuration. -/
structure AccessInput where
  handleAccessBlk : Option BlkD
  handleAccessWbs : List Pkt
  fillWbs : List Pkt
  outstandingMiss : Option MSHR
  prefetchAccess : Bool
  missCount : Nat
  deriving Repr

/-- The outcome of `Cache::access`: whether the access ended as a hit,
the packet as left by the function, the collaborator calls, and the
remaining forced-exit miss count. -/
structure AccessOut where
  hit : Bool
  pkt : Pkt
  acts : List AcAct
  missCount : Nat
  deriving DecidableEq, Repr

/-- `Cache::access`. -/
def access (blkSize : Nat) (coh : Coherence) (inp : AccessInput)
    (pkt : Pkt) : AccessOut :=
  let acts := if inp.prefetchAccess then [AcAct.pfHandleMiss] else []
  let blk0 := if !pkt.uncacheable then inp.handleAccessBlk else none
  let fastCond := blk0.isNone && decide (blkSize ≤ pkt.size)
      && coh.allowFastWrites
      && (decide (pkt.cmd = Command.WriteReq)
          || decide (pkt.cmd = Command.WriteInvalidateReq))
  let doFast := fastCond
      && (decide (pkt.cmd = Command.WriteInvalidateReq)
          || inp.outstandingMiss.isNone)
  let warned := doFast && inp.outstandingMiss.isSome
  let blk := if doFast then some { status := 3, data := pkt.data } else blk0
  let acts := acts ++ (if warned then [AcAct.warnFastAlloc] else [])
      ++ (if doFast then [AcAct.fastAllocate] else [])
  let wbs := (if !pkt.uncacheable then inp.handleAccessWbs else [])
      ++ (if doFast then inp.fillWbs else [])
  let acts := acts ++ wbs.map (fun _ => AcAct.doWriteback)
  if blk.isSome then
    let acts := acts ++ (if pkt.cmd.needsResponse then [AcAct.respond] else [])
    let pkt' := if pkt.cmd = Command.Writeback then
        { pkt with flags := { pkt.flags with satisfied := true } }
      else pkt
    { hit := true, pkt := pkt', acts := acts, missCount := inp.missCount }
  else
    let mcActs : Nat × List AcAct :=
      if !pkt.uncacheable then
        if inp.missCount ≠ 0 then
          (inp.missCount - 1,
           acts ++ (if inp.missCount = 1 then [AcAct.exitSim] else []))
        else (inp.missCount, acts)
      else (inp.missCount, acts)
    if pkt.flags.satisfied then
      { hit := false, pkt := pkt,
        acts := mcActs.2 ++ (if pkt.cmd.needsResponse then [AcAct.respond] else []),
        missCount := mcActs.1 }
    else
      { hit := false, pkt := pkt, acts := mcActs.2 ++ [AcAct.handleMiss],
        missCount := mcActs.1 }

/-- Calls `Cache::handleResponse` makes on its collaborators, in order. -/
inductive HrAct where
  | restorePkt
  | warnNack
  | fillBlock (ns : Nat)
  | doWriteback
  | mqHandleResponse
  deriving DecidableEq, Repr

/-- Collaborator results `Cache::handleResponse` consumes: the current
state of the found block (0 when absent) and the writebacks the fill
produces. -/
structure HrInput where
  oldState : Nat
  fillWbs : List Pkt
  deriving Repr

/-- `Cache::handleResponse`. -/
def handleResponse (coh : Coherence) (inp : HrInput) (pkt : Pkt) :
    List HrAct :=
  match pkt.senderState with
  | none => []
  | some _ =>
    let acts := [HrAct.restorePkt]
    if pkt.result = PResult.Nacked then acts ++ [HrAct.warnNack]
    else
      let acts := acts ++
        (if pkt.flags.cacheFill && !pkt.flags.noAllocate then
          [HrAct.fillBlock (coh.getNewState pkt inp.oldState)]
            ++ inp.fillWbs.map (fun _ => HrAct.doWriteback)
        else [])
      acts ++ [HrAct.mqHandleResponse]

/-- `Cache::snoopResponse` — `none` models the `assert(0)` abort taken
whenever the response carries the NackedLine flag. -/
def snoopResponse (pkt : Pkt) : Option Unit :=
  if pkt.flags.nackedLine then none else some ()

end M5

namespace M5

/-! ### Functional probe (`Cache::probe` with `update == false`) -/

/-- Which port is "the other side" of a probe. -/
inductive Side where
  | cpuSide | memSide
  deriving DecidableEq, Repr

/-- Forwarding calls the functional probe makes. -/
inductive PrAct where
  | fwdOther
  | fwdMem
  deriving DecidableEq, Repr

/-- Modelled from the spec: `Packet::fixPacket` (the `Packet` component is
not among the provided sources) — propagate an in-place data fix-up from a
pending write `w` into an overlapping probed packet, so debug reads
observe the most recent write; a write that covers the whole probed range
satisfies the probe. -/
def fixPacket (pkt w : Pkt) : Pkt :=
  { pkt with
    data := (List.range pkt.size).map (fun i =>
      if w.addr ≤ pkt.addr + i ∧ pkt.addr + i < w.addr + w.size then
        w.data.getD (pkt.addr + i - w.addr) 0
      else pkt.data.getD i 0),
    result := if covers w pkt then PResult.Success else pkt.result }

/-- One iteration of the probe's fix-up loops: fix the probed packet from
`t` when the two overlap (`if (target->intersect(pkt)) fixPacket(...)`). -/
def fixStep (p t : Pkt) : Pkt :=
  if t.intersect p then fixPacket p t else p

/-- Modelled from the spec: the read view of `tags->handleAccess` on the
probe path (the tag store is an external collaborator, "lookup, allocate,
evict") — a cacheable read that hits copies the line's bytes into the
packet and succeeds; a miss leaves the packet untouched. -/
def handleAccessF (blkSize : Nat) (blk : Option BlkD) (pkt : Pkt) : Pkt :=
  if pkt.uncacheable then pkt
  else
    match blk with
    | none => pkt
    | some b =>
      if pkt.cmd.isRead then
        { pkt with
          data := (List.range pkt.size).map
                    (fun i => b.data.getD (pkt.addr % blkSize + i) 0),
          result := PResult.Success }
      else pkt

/-- `mshr->getTargetList()` on the probe path: the Miss Entry's target
list, empty when no entry matches. -/
def mshrTargets : Option MSHR → List Pkt
  | some m => m.targets
  | none => []

/-- The lookup results and collaborators the functional probe consumes:
the tag lookup, the matching Miss Entry, the matching writeback entries,
and the functional transport of the other-side Link (`sendFunctional`
toward the CPU side, used for write probes and mem-side probes). -/
structure ProbeInput where
  blk : Option BlkD
  mshr : Option MSHR
  writes : List MSHR
  otherFunc : Pkt → Pkt

/-- `Cache::probe` with `update == false` (the functional transport):
the invalidate shortcut, the other-side forward, the tag lookup, the
in-place fix-ups from the Miss Entry's target list and from the pending
writeback entries, and the final forward to memory when the probe is
still unsatisfied. `mem a` is the backing memory byte at address `a`. -/
def probeFunctional (blkSize : Nat) (inp : ProbeInput) (mem : Nat → Nat)
    (otherSide : Side) (pkt0 : Pkt) : Pkt × List PrAct :=
  if !pkt0.uncacheable && pkt0.cmd.isInvalidate && !pkt0.cmd.isRead
      && !pkt0.cmd.isWrite then
    ({ pkt0 with flags := { pkt0.flags with satisfied := true } }, [])
  else
    let fwd : Pkt × List PrAct × Bool :=
      if pkt0.cmd.isWrite || otherSide = Side.cpuSide then
        let p := inp.otherFunc pkt0
        if p.cmd.isRead && p.result = PResult.Success then
          (p, [PrAct.fwdOther], true)
        else (p, [PrAct.fwdOther], false)
      else (pkt0, [], false)
    if fwd.2.2 then (fwd.1, fwd.2.1)
    else
      let p1 := handleAccessF blkSize inp.blk fwd.1
      let p2 := (mshrTargets inp.mshr).foldl fixStep p1
      let p3 := (inp.writes.map (fun w => w.pkt)).foldl fixStep p2
      if p3.cmd.isRead && !(decide (p3.result = PResult.Success))
          && otherSide = Side.memSide then
        ({ p3 with
           data := (List.range p3.size).map (fun i => mem (p3.addr + i)),
           result := PResult.Success },
         fwd.2.1 ++ [PrAct.fwdMem])
      else (p3, fwd.2.1)

end M5

namespace M5

/-! ### Theorems: CPU pipeline claims -/

/-- C3: a retry callback delivered to the instruction or data port while
the pipeline is in the corresponding Retry state holding a rejected packet
re-offers exactly that held packet (and only it); on acceptance the status
moves to the corresponding WaitResponse state and the held reference is
cleared, and on a second rejection the state (packet included) is
unchanged, so the packet is still held for the next retry. -/
theorem claim3_recvRetry_reoffers_held_packet
    (st : CpuState) (p : Pkt) (accept : Bool) :
    (st.dcachePkt = some p → st.status = CStat.DcacheRetry →
      dcacheRecvRetry st accept
        = some (if accept then
            ({ st with status := CStat.DcacheWaitResponse, dcachePkt := none }, p)
          else (st, p)))
    ∧ (st.ifetchPkt = some p → st.status = CStat.IcacheRetry →
      icacheRecvRetry st accept
        = some (if accept then
            ({ st with status := CStat.IcacheWaitResponse, ifetchPkt := none }, p)
          else (st, p))) := by
  constructor
  · intro h1 h2
    cases accept <;> simp [dcacheRecvRetry, h1, h2]
  · intro h1 h2
    cases accept <;> simp [icacheRecvRetry, h1, h2]

def pktR16 : Pkt := mkReadPkt 16 4 false

def stDRetry : CpuState :=
  { status := CStat.DcacheRetry, simState := SimState.SRunning,
    ifetchPkt := none, dcachePkt := some pktR16, drainEvent := none }

/-- Witness for C3 at a concrete state: the held read packet is re-offered
and, on acceptance, cleared. -/
theorem claim3_witness :
    dcacheRecvRetry stDRetry true
      = some ({ stDRetry with status := CStat.DcacheWaitResponse,
                              dcachePkt := none }, pktR16) := by
  have h := (claim3_recvRetry_reoffers_held_packet stDRetry pktR16 true).1
    (by decide) (by decide)
  simpa using h

/-- C5: a read or write whose translation succeeds (and whose locked-write
check permits the access) offers its packet on the data Link exactly once;
acceptance moves the pipeline to DcacheWaitResponse with `dcache_pkt`
cleared (ownership passes to the memory system), rejection moves it to
DcacheRetry with exactly that packet retained in `dcache_pkt`. -/
theorem claim5_read_write_send_ownership
    (st : CpuState) (addr size : Nat) (unc locked lockedOk accept : Bool)
    (data : List Nat) :
    (readOp st addr size unc none accept
      = (none,
         (if accept then
            { st with status := CStat.DcacheWaitResponse, dcachePkt := none }
          else
            { st with status := CStat.DcacheRetry,
                      dcachePkt := some (mkReadPkt addr size unc) }),
         [CpuAct.sendDcache (mkReadPkt addr size unc)]
           ++ (if unc then [CpuAct.recordUncached] else [])))
    ∧ (st.dcachePkt = none → (!locked || lockedOk) = true →
       writeOp st addr size unc data none locked lockedOk accept
        = some (none,
           (if accept then
              { st with status := CStat.DcacheWaitResponse, dcachePkt := none }
            else
              { st with status := CStat.DcacheRetry,
                        dcachePkt := some (mkWritePkt addr size unc data) }),
           [CpuAct.sendDcache (mkWritePkt addr size unc data)]
             ++ (if unc then [CpuAct.recordUncached] else []))) := by
  constructor
  · cases accept <;> simp [readOp]
  · intro h1 h2
    cases accept <;> simp [writeOp, h1, h2]

def stRun : CpuState :=
  { status := CStat.Running, simState := SimState.SRunning,
    ifetchPkt := none, dcachePkt := none, drainEvent := none }

/-- Witness for C5 at a concrete state: an accepted write moves the
pipeline to DcacheWaitResponse and clears `dcache_pkt`. -/
theorem claim5_witness :
    writeOp stRun 32 4 false [9, 9, 9, 9] none false false true
      = some (none,
          { stRun with status := CStat.DcacheWaitResponse, dcachePkt := none },
          [CpuAct.sendDcache (mkWritePkt 32 4 false [9, 9, 9, 9])]) := by
  have h := (claim5_read_write_send_ownership stRun 32 4 false false false
    true [9, 9, 9, 9]).2 (by decide) (by decide)
  simpa using h

/-- C7: a drain request with no outstanding access (Idle, Running or
SwitchedOut) returns 0 and enters Drained immediately; otherwise it
returns 1, enters Draining and stores the drain event; when the in-flight
data access then resolves, `completeDataAccess` signals the stored drain
event and the pipeline ends Drained. -/
theorem claim7_drain_defer (st : CpuState) (ev e : Nat) (pkt : Pkt)
    (accFault : Option Nat) :
    ((st.status = CStat.Idle ∨ st.status = CStat.Running
        ∨ st.status = CStat.SwitchedOut) →
      drainOp st ev = (0, { st with simState := SimState.Drained }))
    ∧ (¬(st.status = CStat.Idle ∨ st.status = CStat.Running
          ∨ st.status = CStat.SwitchedOut) →
      drainOp st ev
        = (1, { st with simState := SimState.Draining,
                        drainEvent := some ev }))
    ∧ (pkt.result = PResult.Success → st.status = CStat.DcacheWaitResponse →
       st.simState = SimState.Draining → st.drainEvent = some e →
      completeDataAccess st pkt accFault
        = some ({ st with status := CStat.Running,
                          simState := SimState.Drained },
                [CpuAct.advancePC accFault, CpuAct.processDrain e])) := by
  refine ⟨fun h => ?_, fun h => ?_, fun h1 h2 h3 h4 => ?_⟩
  · simp [drainOp, h]
  · simp [drainOp, h]
  · simp [completeDataAccess, completeDrain, h1, h2, h3, h4]

def stWaitDrain : CpuState :=
  { status := CStat.DcacheWaitResponse, simState := SimState.Draining,
    ifetchPkt := none, dcachePkt := none, drainEvent := some 7 }

def respPkt : Pkt :=
  { cmd := Command.ReadResp, addr := 16, size := 4, flags := noFlags,
    result := PResult.Success, uncacheable := false, senderState := none,
    data := [1, 2, 3, 4] }

/-- Witness for C7 at a concrete state: a deferred drain completes when
the outstanding data access resolves, signalling event 7. -/
theorem claim7_witness :
    drainOp stWaitDrain 7
      = (1, { stWaitDrain with simState := SimState.Draining,
                               drainEvent := some 7 })
    ∧ completeDataAccess stWaitDrain respPkt none
      = some ({ stWaitDrain with status := CStat.Running,
                                 simState := SimState.Drained },
              [CpuAct.advancePC none, CpuAct.processDrain 7]) :=
  ⟨(claim7_drain_defer stWaitDrain 7 7 respPkt none).2.1 (by decide),
   (claim7_drain_defer stWaitDrain 7 7 respPkt none).2.2
     (by decide) (by decide) (by decide) (by decide)⟩

/-- C8: a read or write whose translation fails, and a fetch whose
request setup faults, send nothing on the corresponding Link: the typed
fault is handed back unchanged (read/write) and the fetch advances
directly to the next instruction through the fault path. -/
theorem claim8_fault_short_circuits
    (st : CpuState) (addr size fetchAddr : Nat)
    (unc locked lockedOk accept : Bool) (data : List Nat) (f : Nat) :
    (readOp st addr size unc (some f) accept
      = (some f, st, if unc then [CpuAct.recordUncached] else []))
    ∧ (writeOp st addr size unc data (some f) locked lockedOk accept
      = some (some f, st, if unc then [CpuAct.recordUncached] else []))
    ∧ (fetchOp st fetchAddr (some f) accept
      = ({ st with ifetchPkt := some (mkIfetchPkt fetchAddr) },
         [CpuAct.advInst (some f)])) :=
  ⟨rfl, rfl, rfl⟩

/-- C10: every packet delivered to the instruction or data port through
`recvTiming` is accepted (the function returns true whenever it returns
at all), and a non-response packet — an inbound snoop — leaves the CPU
state, status and held packets entirely unchanged, with no collaborator
calls. -/
theorem claim10_recvTiming_accepts_snoops_noop
    (st : CpuState) (pkt : Pkt) (nextNow : Bool) (accFault : Option Nat)
    (ex : ExecInfo) :
    (∀ r, dcacheRecvTiming st pkt nextNow accFault = some r → r.1 = true)
    ∧ (∀ r, icacheRecvTiming st pkt nextNow ex = some r → r.1 = true)
    ∧ (pkt.cmd.isResponse = false →
        dcacheRecvTiming st pkt nextNow accFault = some (true, st, [])
        ∧ icacheRecvTiming st pkt nextNow ex = some (true, st, [])) := by
  refine ⟨fun r hr => ?_, fun r hr => ?_, fun h => ?_⟩
  · unfold dcacheRecvTiming at hr
    split at hr
    · split at hr
      · cases hc : completeDataAccess st pkt accFault <;> rw [hc] at hr
        · simp at hr
        · injection hr with h2
          rw [← h2]
      · injection hr with h2
        rw [← h2]
    · injection hr with h2
      rw [← h2]
  · unfold icacheRecvTiming at hr
    split at hr
    · split at hr
      · cases hc : completeIfetch st pkt ex <;> rw [hc] at hr
        · simp at hr
        · injection hr with h2
          rw [← h2]
      · injection hr with h2
        rw [← h2]
    · injection hr with h2
      rw [← h2]
  · simp [dcacheRecvTiming, icacheRecvTiming, h]

def snpPkt : Pkt :=
  { cmd := Command.InvalidateReq, addr := 32, size := 64, flags := noFlags,
    result := PResult.Unknown, uncacheable := false, senderState := none,
    data := [] }

def exInfo0 : ExecInfo :=
  { isMemRef := false, initStatus := CStat.Running, initDcachePkt := none,
    initFault := none, accFault := none, execFault := none }

/-- Witness for C10 at a concrete state: an inbound invalidate snoop is
accepted by both ports and changes nothing. -/
theorem claim10_witness :
    dcacheRecvTiming stRun snpPkt true none = some (true, stRun, [])
    ∧ icacheRecvTiming stRun snpPkt true exInfo0 = some (true, stRun, []) :=
  (claim10_recvTiming_accepts_snoops_noop stRun snpPkt true none
    exInfo0).2.2 (by decide)

end M5

namespace M5

/-! ### Theorems: cache stage claims -/

/-- C9: a correlated response whose result is Nacked is not retried:
`handleResponse` restores the Miss Entry's packet, emits the loud
unsupported-NACK warning and returns without servicing the Miss Entry
(no fill, no miss-queue handleResponse); and `snoopResponse` on a
NackedLine packet is an explicit abort (`assert(0)`), not a retry. -/
theorem claim9_nack_unsupported (coh : Coherence) (inp : HrInput)
    (pkt : Pkt) (m : Nat) :
    (pkt.senderState = some m → pkt.result = PResult.Nacked →
      handleResponse coh inp pkt = [HrAct.restorePkt, HrAct.warnNack])
    ∧ (pkt.flags.nackedLine = true → snoopResponse pkt = none) := by
  constructor
  · intro h1 h2
    simp [handleResponse, h1, h2]
  · intro h
    simp [snoopResponse, h]

def cohTriv : Coherence :=
  { hasProtocol := true, allowFastWrites := false,
    handleBusRequest := fun _ _ _ => (false, 0),
    getNewState := fun _ s => s }

def nackedResp : Pkt :=
  { cmd := Command.ReadResp, addr := 64, size := 16, flags := noFlags,
    result := PResult.Nacked, uncacheable := false, senderState := some 3,
    data := List.replicate 16 0 }

def nackedLinePkt : Pkt :=
  { cmd := Command.ReadReq, addr := 64, size := 16,
    flags := { noFlags with nackedLine := true },
    result := PResult.Unknown, uncacheable := false, senderState := none,
    data := List.replicate 16 0 }

/-- Witness for C9 at concrete packets: a Nacked correlated response warns
and stops; a NackedLine snoop response aborts. -/
theorem claim9_witness :
    handleResponse cohTriv { oldState := 0, fillWbs := [] } nackedResp
      = [HrAct.restorePkt, HrAct.warnNack]
    ∧ snoopResponse nackedLinePkt = none :=
  ⟨(claim9_nack_unsupported cohTriv { oldState := 0, fillWbs := [] }
      nackedResp 3).1 (by decide) (by decide),
   (claim9_nack_unsupported cohTriv { oldState := 0, fillWbs := [] }
      nackedLinePkt 3).2 (by decide)⟩

/-- C2 (amended): for a cacheable full-line write to a line that is not
present, the fast write-allocate path requires the coherence policy to
permit fast writes, and requires the absence of an outstanding miss only
for a plain WriteReq; a WriteInvalidateReq fast-allocates even with an
outstanding miss to the same address, emitting a warning — not a fatal
protocol violation. -/
theorem claim2_fast_write_allocate_guard
    (blkSize : Nat) (coh : Coherence) (inp : AccessInput) (pkt : Pkt)
    (h1 : pkt.uncacheable = false) (h2 : inp.handleAccessBlk = none)
    (h3 : blkSize ≤ pkt.size)
    (h4 : pkt.cmd = Command.WriteReq ∨ pkt.cmd = Command.WriteInvalidateReq) :
    (AcAct.fastAllocate ∈ (access blkSize coh inp pkt).acts
      ↔ (coh.allowFastWrites = true
          ∧ (pkt.cmd = Command.WriteInvalidateReq
              ∨ inp.outstandingMiss = none)))
    ∧ (pkt.cmd = Command.WriteReq →
        (AcAct.fastAllocate ∈ (access blkSize coh inp pkt).acts
          ↔ (coh.allowFastWrites = true ∧ inp.outstandingMiss = none)))
    ∧ (pkt.cmd = Command.WriteInvalidateReq → coh.allowFastWrites = true →
        inp.outstandingMiss.isSome = true →
        AcAct.fastAllocate ∈ (access blkSize coh inp pkt).acts
          ∧ AcAct.warnFastAlloc ∈ (access blkSize coh inp pkt).acts) := by
  rcases h4 with h4 | h4 <;>
    cases hf : coh.allowFastWrites <;>
    cases hm : inp.outstandingMiss <;>
    simp [access, h1, h2, h3, h4, hf, hm, Command.needsResponse,
      apply_ite (f := AccessOut.acts), apply_ite (f := Prod.snd),
      List.mem_replicate] <;>
    split_ifs <;>
    simp [List.mem_replicate]

def cohFastW : Coherence :=
  { hasProtocol := true, allowFastWrites := true,
    handleBusRequest := fun _ _ _ => (false, 0),
    getNewState := fun _ s => s }

def wiPkt : Pkt :=
  { cmd := Command.WriteInvalidateReq, addr := 0, size := 4,
    flags := noFlags, result := PResult.Unknown, uncacheable := false,
    senderState := none, data := [1, 2, 3, 4] }

def missMshr : MSHR :=
  { inService := true,
    pkt := { cmd := Command.ReadReq, addr := 0, size := 4, flags := noFlags,
             result := PResult.Unknown, uncacheable := false,
             senderState := none, data := [0, 0, 0, 0] },
    targets := [] }

def inpWI : AccessInput :=
  { handleAccessBlk := none, handleAccessWbs := [], fillWbs := [],
    outstandingMiss := some missMshr, prefetchAccess := false,
    missCount := 0 }

/-- Counterexample to C2 as stated: a full-line WriteInvalidateReq to an
absent line with an outstanding miss to the same address still takes the
fast write-allocate path — the code only warns, it does not treat the
situation as a protocol violation. -/
theorem claim2_counterexample :
    inpWI.outstandingMiss.isSome = true
    ∧ AcAct.fastAllocate ∈ (access 4 cohFastW inpWI wiPkt).acts
    ∧ (access 4 cohFastW inpWI wiPkt).acts
        = [AcAct.warnFastAlloc, AcAct.fastAllocate, AcAct.respond] := by
  decide

def inpNoMiss : AccessInput :=
  { handleAccessBlk := none, handleAccessWbs := [], fillWbs := [],
    outstandingMiss := none, prefetchAccess := false, missCount := 0 }

def wrPkt : Pkt :=
  { cmd := Command.WriteReq, addr := 8, size := 4, flags := noFlags,
    result := PResult.Unknown, uncacheable := false, senderState := none,
    data := [5, 6, 7, 8] }

/-- Witness for C2 at a concrete input: a plain full-line write with no
outstanding miss fast-allocates exactly when the policy permits it. -/
theorem claim2_witness :
    AcAct.fastAllocate ∈ (access 4 cohFastW inpNoMiss wrPkt).acts
      ↔ (cohFastW.allowFastWrites = true ∧ inpNoMiss.outstandingMiss = none) :=
  (claim2_fast_write_allocate_guard 4 cohFastW inpNoMiss wrPkt
    (by decide) (by decide) (by decide) (Or.inl (by decide))).2.1 (by decide)

end M5

namespace M5

/-- The two snoop steps that satisfy a packet: NACKing it, and supplying
data from a matching writeback entry. -/
def isSatStep : SnAct → Bool
  | SnAct.nack => true
  | SnAct.supplyData => true
  | _ => false

theorem snoopTail_countP (coh : Coherence) (blk : Option BlkD) (pkt : Pkt)
    (mshrArg : Option MSHR) (acts : List SnAct) (p : Pkt) (a : List SnAct)
    (he : snoopTail coh blk pkt mshrArg acts = some (p, a)) :
    a.countP isSatStep = acts.countP isSatStep := by
  unfold snoopTail at he
  cases hr : (coh.handleBusRequest pkt blk mshrArg).1 <;>
    simp only [hr, if_true, if_false, Bool.false_eq_true,
      Option.some.injEq, Prod.mk.injEq] at he <;>
    · rcases he with ⟨_, h2⟩
      subst h2
      simp [List.countP_append, List.countP_cons, List.countP_nil, isSatStep]

theorem snoopWbs_countP (blkSize : Nat) (pkt : Pkt) (l : List MSHR) :
    ∀ (acts : List SnAct) (cur : Option MSHR) (p : Pkt) (a : List SnAct),
    snoopWbs blkSize pkt acts l cur = Sum.inl (some (p, a)) →
    a.countP isSatStep
      ≤ acts.countP isSatStep + (if pkt.flags.satisfied then 0 else 1) := by
  induction l with
  | nil =>
    intro acts cur p a he
    simp [snoopWbs] at he
  | cons wb rest ih =>
    intro acts cur p a he
    unfold snoopWbs at he
    split at he
    · exact ih acts (some wb) p a he
    · cases hr : pkt.cmd.isRead <;>
        cases hinv : pkt.cmd.isInvalidate <;>
        cases hs : pkt.flags.satisfied <;>
        cases hA : (decide (pkt.addr % blkSize < blkSize)
            && decide (pkt.size ≤ blkSize)
            && decide (pkt.addr % blkSize + pkt.size ≤ blkSize)) <;>
        simp only [hr, hinv, hs, hA, Bool.not_true, Bool.not_false,
          if_true, if_false, Bool.false_eq_true, Bool.true_eq_false,
          Sum.inl.injEq, Option.some.injEq, Prod.mk.injEq,
          reduceCtorEq] at he <;>
        · rcases he with ⟨_, h2⟩
          subst h2
          simp [List.countP_append, List.countP_cons, List.countP_nil,
            isSatStep]

theorem snoopAfterMshr_countP (blkSize : Nat) (coh : Coherence)
    (inp : SnInput) (pkt : Pkt) (acts : List SnAct) (p : Pkt)
    (a : List SnAct)
    (he : snoopAfterMshr blkSize coh inp pkt acts = some (p, a)) :
    a.countP isSatStep
      ≤ acts.countP isSatStep + (if pkt.flags.satisfied then 0 else 1) := by
  unfold snoopAfterMshr at he
  cases hw : snoopWbs blkSize pkt acts inp.writebacks inp.mshr with
  | inl r =>
    rw [hw] at he
    have he' : r = some (p, a) := he
    rw [he'] at hw
    exact snoopWbs_countP blkSize pkt inp.writebacks acts inp.mshr p a hw
  | inr cur =>
    rw [hw] at he
    have he' : snoopTail coh inp.blk pkt cur acts = some (p, a) := he
    have h := snoopTail_countP coh inp.blk pkt cur acts p a he'
    rw [h]
    split <;> omega

/-- C4: in any completed run of the snoop path (one that trips no
assertion), the packet is satisfied at most once: each satisfying step
(the NACK and the writeback data supply) checks that the packet is not
already Satisfied, so the number of satisfying steps plus an initially
satisfied packet never exceeds one. -/
theorem claim4_satisfied_at_most_once
    (blkSize : Nat) (coh : Coherence) (inp : SnInput) (pkt : Pkt)
    (p : Pkt) (acts : List SnAct)
    (he : snoop blkSize coh inp pkt = some (p, acts)) :
    acts.countP isSatStep + (if pkt.flags.satisfied then 1 else 0) ≤ 1 := by
  unfold snoop at he
  split at he
  · simp only [Option.some.injEq, Prod.mk.injEq] at he
    rcases he with ⟨_, h2⟩
    subst h2
    simp only [List.countP_nil]
    split <;> omega
  · split at he
    · split at he
      · -- an MSHR was found
        split at he
        · -- in service
          split at he
          · -- NACK leg
            split at he
            · simp at he
            · simp only [Option.some.injEq, Prod.mk.injEq] at he
              rcases he with ⟨_, h2⟩
              subst h2
              simp_all [List.countP_append, List.countP_cons,
                List.countP_nil, isSatStep]
          · -- append-invalidate leg
            simp only [Option.some.injEq, Prod.mk.injEq] at he
            rcases he with ⟨_, h2⟩
            subst h2
            cases hs : pkt.flags.satisfied <;>
              simp [hs, List.countP_append, List.countP_cons,
                List.countP_nil, isSatStep]
        · have h := snoopAfterMshr_countP blkSize coh inp pkt _ p acts he
          cases hs : pkt.flags.satisfied <;>
            simp only [hs, List.countP_cons, List.countP_nil, isSatStep,
              if_true, if_false, Bool.false_eq_true, cond_false,
              cond_true] at h ⊢ <;>
            omega
      · have h := snoopAfterMshr_countP blkSize coh inp pkt _ p acts he
        cases hs : pkt.flags.satisfied <;>
          simp only [hs, List.countP_cons, List.countP_nil, isSatStep,
            if_true, if_false, Bool.false_eq_true, cond_false,
            cond_true] at h ⊢ <;>
          omega
    · have h := snoopTail_countP coh inp.blk pkt _ _ p acts he
      rw [h]
      cases hs : pkt.flags.satisfied <;>
        simp only [hs, List.countP_cons, List.countP_nil, isSatStep,
          if_true, if_false, Bool.false_eq_true, cond_false, cond_true] <;>
        omega

def cohProt : Coherence :=
  { hasProtocol := true, allowFastWrites := false,
    handleBusRequest := fun _ _ _ => (false, 0),
    getNewState := fun _ s => s }

def wbPkt : Pkt :=
  { cmd := Command.Writeback, addr := 0, size := 8, flags := noFlags,
    result := PResult.Unknown, uncacheable := false, senderState := none,
    data := [5, 5, 5, 5, 5, 5, 5, 5] }

def wbMshr : MSHR := { inService := true, pkt := wbPkt, targets := [] }

def snInp1 : SnInput := { blk := none, mshr := some wbMshr, writebacks := [] }

def rdSnoop : Pkt :=
  { cmd := Command.ReadReq, addr := 4, size := 4, flags := noFlags,
    result := PResult.Unknown, uncacheable := false, senderState := none,
    data := [0, 0, 0, 0] }

def rdSnoopNacked : Pkt :=
  { rdSnoop with
    flags := { rdSnoop.flags with satisfied := true, nackedLine := true } }

/-- Witness for C4 at a concrete input: a read snoop hitting an in-service
writeback Miss Entry is satisfied exactly once (by the NACK step). -/
theorem claim4_witness :
    List.countP isSatStep [SnAct.propInv, SnAct.nack]
      + (if rdSnoop.flags.satisfied then 1 else 0) ≤ 1 :=
  claim4_satisfied_at_most_once 8 cohProt snInp1 rdSnoop rdSnoopNacked
    [SnAct.propInv, SnAct.nack] (by decide)

end M5

namespace M5

/-- C1 (amended): for a cacheable, not-yet-satisfied inbound snoop packet
processed while the coherence engine has a full protocol or the snoop is
itself an invalidating packet, if the snooped line's Miss Entry is in
service then: when the in-flight request is an invalidate or is not a
cache fill and the snoop's command is neither InvalidateReq nor
WriteInvalidateReq, the snoop is NACKed — Satisfied and NackedLine are
set and nothing beyond the initial upward invalidate propagation is done;
otherwise an invalidate target for the snooped address is appended to
that Miss Entry instead. -/
theorem claim1_snoop_inservice_nack_or_append
    (blkSize : Nat) (coh : Coherence) (inp : SnInput) (pkt : Pkt) (m : MSHR)
    (h1 : pkt.uncacheable = false)
    (h2 : (coh.hasProtocol || pkt.cmd.isInvalidate) = true)
    (h3 : inp.mshr = some m)
    (h4 : m.inService = true)
    (h5 : pkt.flags.satisfied = false) :
    (((m.pkt.cmd.isInvalidate || !m.pkt.flags.cacheFill)
        && !(decide (pkt.cmd = Command.InvalidateReq))
        && !(decide (pkt.cmd = Command.WriteInvalidateReq))) = true →
      snoop blkSize coh inp pkt
        = some ({ pkt with flags :=
                    { pkt.flags with satisfied := true, nackedLine := true } },
                [SnAct.propInv, SnAct.nack]))
    ∧ (((m.pkt.cmd.isInvalidate || !m.pkt.flags.cacheFill)
        && !(decide (pkt.cmd = Command.InvalidateReq))
        && !(decide (pkt.cmd = Command.WriteInvalidateReq))) = false →
      snoop blkSize coh inp pkt
        = some (pkt, [SnAct.propInv, SnAct.addTarget pkt.addr])) := by
  constructor
  · intro hc
    simp [snoop, h1, h2, h3, h4, h5, hc]
  · intro hc
    simp [snoop, h1, h2, h3, h4, h5, hc]

/-- Witness for C1 at a concrete input: under a full snooping protocol, a
read snoop for a line whose Miss Entry is an in-service writeback is
NACKed with both flags set and no further servicing. -/
theorem claim1_witness :
    snoop 8 cohProt snInp1 rdSnoop = some (rdSnoopNacked, [SnAct.propInv, SnAct.nack]) := by
  have h := (claim1_snoop_inservice_nack_or_append 8 cohProt snInp1 rdSnoop
    wbMshr (by decide) (by decide) (by decide) (by decide) (by decide)).1
    (by decide)
  exact h.trans (by decide)

def cohNoProt : Coherence :=
  { hasProtocol := false, allowFastWrites := false,
    handleBusRequest := fun _ _ _ => (false, 0),
    getNewState := fun _ s => s }

def rdSnoopUnc : Pkt := { rdSnoop with uncacheable := true }

/-- Counterexample to C1 as stated: the claim quantifies over every
inbound snoop whose line has an in-service Miss Entry, but the NACK/append
handling is guarded — it runs only for cacheable packets and only when
the protocol has snooping (`hasProtocol`) or the snoop invalidates.  A
cacheable read snoop under a protocol without snooping, against the very
in-service writeback Miss Entry the claim describes, is not NACKed (it
falls through to the coherence engine's bus-request handler); an
uncacheable one is ignored outright. -/
theorem claim1_counterexample :
    wbMshr.inService = true
    ∧ (wbMshr.pkt.cmd.isInvalidate || !wbMshr.pkt.flags.cacheFill) = true
    ∧ rdSnoop.cmd ≠ Command.InvalidateReq
    ∧ rdSnoop.cmd ≠ Command.WriteInvalidateReq
    ∧ (snoop 8 cohNoProt snInp1 rdSnoop).map (fun r => r.1.flags.nackedLine)
        = some false
    ∧ (snoop 8 cohNoProt snInp1 rdSnoop).map (fun r => r.1.flags.satisfied)
        = some false
    ∧ snoop 8 cohNoProt snInp1 rdSnoopUnc = some (rdSnoopUnc, []) := by
  decide

end M5

namespace M5

/-! ### Fix-up lemmas for the functional probe -/

theorem fixStep_addr (p t : Pkt) : (fixStep p t).addr = p.addr := by
  unfold fixStep fixPacket
  split <;> rfl

theorem fixStep_size (p t : Pkt) : (fixStep p t).size = p.size := by
  unfold fixStep fixPacket
  split <;> rfl

theorem foldl_fixStep_addr (l : List Pkt) (p : Pkt) :
    (l.foldl fixStep p).addr = p.addr := by
  induction l generalizing p with
  | nil => rfl
  | cons t rest ih => rw [List.foldl_cons, ih, fixStep_addr]

theorem foldl_fixStep_size (l : List Pkt) (p : Pkt) :
    (l.foldl fixStep p).size = p.size := by
  induction l generalizing p with
  | nil => rfl
  | cons t rest ih => rw [List.foldl_cons, ih, fixStep_size]

theorem intersect_eq_of_frame (u p q : Pkt) (h1 : q.addr = p.addr)
    (h2 : q.size = p.size) : u.intersect q = u.intersect p := by
  simp [Pkt.intersect, h1, h2]

theorem covers_eq_of_frame (t p q : Pkt) (h1 : q.addr = p.addr)
    (h2 : q.size = p.size) : covers t q = covers t p := by
  simp [covers, h1, h2]

theorem foldl_fixStep_id (l : List Pkt) (p : Pkt)
    (h : ∀ t ∈ l, t.intersect p = false) : l.foldl fixStep p = p := by
  induction l with
  | nil => rfl
  | cons t rest ih =>
    rw [List.foldl_cons,
      show fixStep p t = p by simp [fixStep, h t (List.mem_cons_self t rest)]]
    exact ih (fun u hu => h u (List.mem_cons_of_mem t hu))

theorem intersect_of_covers (t p : Pkt) (hc : covers t p = true)
    (hpos : 0 < p.size) : t.intersect p = true := by
  simp only [covers, Bool.and_eq_true, decide_eq_true_eq] at hc
  simp only [Pkt.intersect, Bool.and_eq_true, decide_eq_true_eq]
  omega

theorem fixPacket_covers (p t : Pkt) (hc : covers t p = true) :
    (fixPacket p t).data
      = (List.range p.size).map (fun i => t.data.getD (p.addr + i - t.addr) 0)
    ∧ (fixPacket p t).result = PResult.Success := by
  have hc' : t.addr ≤ p.addr ∧ p.addr + p.size ≤ t.addr + t.size := by
    simpa [covers] using hc
  constructor
  · show (List.range p.size).map _ = _
    refine List.map_congr_left ?_
    intro i hi
    have hilt : i < p.size := List.mem_range.mp hi
    have h1 : t.addr ≤ p.addr + i := le_trans hc'.1 (Nat.le_add_right _ _)
    have h2 : p.addr + i < t.addr + t.size := by omega
    simp [h1, h2]
  · show (if covers t p then PResult.Success else p.result) = _
    rw [hc]
    rfl

theorem foldl_fixStep_serves (l1 l2 : List Pkt) (t p : Pkt)
    (hc : covers t p = true) (hpos : 0 < p.size)
    (h2 : ∀ u ∈ l2, u.intersect p = false) :
    ((l1 ++ t :: l2).foldl fixStep p).data
      = (List.range p.size).map (fun i => t.data.getD (p.addr + i - t.addr) 0)
    ∧ ((l1 ++ t :: l2).foldl fixStep p).result = PResult.Success := by
  have hqa : (l1.foldl fixStep p).addr = p.addr := foldl_fixStep_addr l1 p
  have hqs : (l1.foldl fixStep p).size = p.size := foldl_fixStep_size l1 p
  have hcq : covers t (l1.foldl fixStep p) = true := by
    rw [covers_eq_of_frame t p _ hqa hqs]
    exact hc
  have hint : t.intersect (l1.foldl fixStep p) = true :=
    intersect_of_covers t _ hcq (by rw [hqs]; exact hpos)
  have hfix : fixStep (l1.foldl fixStep p) t
      = fixPacket (l1.foldl fixStep p) t := by simp [fixStep, hint]
  have hra : (fixPacket (l1.foldl fixStep p) t).addr = p.addr := hqa
  have hrs : (fixPacket (l1.foldl fixStep p) t).size = p.size := hqs
  have hcov := fixPacket_covers (l1.foldl fixStep p) t hcq
  have hl2 : l2.foldl fixStep (fixPacket (l1.foldl fixStep p) t)
      = fixPacket (l1.foldl fixStep p) t := by
    refine foldl_fixStep_id l2 _ (fun u hu => ?_)
    rw [intersect_eq_of_frame u p _ hra hrs]
    exact h2 u hu
  rw [List.foldl_append, List.foldl_cons, hfix, hl2]
  rw [hcov.1, hqa, hqs]
  exact ⟨rfl, hcov.2⟩

theorem handleAccessF_frame (blkSize : Nat) (blk : Option BlkD) (p : Pkt) :
    (handleAccessF blkSize blk p).addr = p.addr
    ∧ (handleAccessF blkSize blk p).size = p.size
    ∧ (handleAccessF blkSize blk p).cmd = p.cmd := by
  cases hu : p.uncacheable <;> cases blk <;> cases hr : p.cmd.isRead <;>
    simp [handleAccessF, hu, hr]

theorem probeFunctional_post (blkSize : Nat) (inp : ProbeInput)
    (mem : Nat → Nat) (pkt p3 : Pkt)
    (hcmd : pkt.cmd = Command.ReadReq) (hunc : pkt.uncacheable = false)
    (hchain : (inp.writes.map (fun w => w.pkt)).foldl fixStep
        ((mshrTargets inp.mshr).foldl fixStep
          (handleAccessF blkSize inp.blk pkt)) = p3)
    (hres : p3.result = PResult.Success) :
    probeFunctional blkSize inp mem Side.memSide pkt = (p3, []) := by
  have h1 : pkt.cmd.isInvalidate = false := by rw [hcmd]; rfl
  have h2 : pkt.cmd.isWrite = false := by rw [hcmd]; rfl
  have e3 : decide (Side.memSide = Side.cpuSide) = false := rfl
  simp only [probeFunctional, h1, h2, hunc, e3, Bool.not_false,
    Bool.true_and, Bool.and_false, Bool.false_and, Bool.false_or,
    Bool.false_eq_true, if_false]
  rw [hchain]
  simp [hres]


/-- C6: a functional (non-updating) read probe observes the most recent
pending write: with no overlapping pending write it returns the hit
line's bytes; when the last overlapping entry among the Miss Entry's
targets fully covers the probed range, the probe's in-place fix-up
returns exactly that write's bytes; and likewise when a pending writeback
entry is the last overlapping entry — so writing V to A and then
functionally reading A with no later conflicting write returns V whether
the read hits the Block Store, merges with an in-flight miss's targets,
or is served from a pending writeback. -/
theorem claim6_functional_probe_roundtrip
    (blkSize : Nat) (inp : ProbeInput) (mem : Nat → Nat) (pkt : Pkt)
    (hcmd : pkt.cmd = Command.ReadReq) (hunc : pkt.uncacheable = false)
    (hpos : 0 < pkt.size) :
    (∀ b, inp.blk = some b →
      (∀ m, inp.mshr = some m → ∀ t ∈ m.targets, t.intersect pkt = false) →
      (∀ x ∈ inp.writes, x.pkt.intersect pkt = false) →
      probeFunctional blkSize inp mem Side.memSide pkt
        = ({ pkt with
             data := (List.range pkt.size).map
               (fun i => b.data.getD (pkt.addr % blkSize + i) 0),
             result := PResult.Success }, []))
    ∧ (∀ m l1 t l2, inp.mshr = some m → m.targets = l1 ++ t :: l2 →
        covers t pkt = true →
        (∀ u ∈ l2, u.intersect pkt = false) →
        (∀ x ∈ inp.writes, x.pkt.intersect pkt = false) →
        (probeFunctional blkSize inp mem Side.memSide pkt).1.data
          = (List.range pkt.size).map
              (fun i => t.data.getD (pkt.addr + i - t.addr) 0)
        ∧ (probeFunctional blkSize inp mem Side.memSide pkt).1.result
            = PResult.Success
        ∧ (probeFunctional blkSize inp mem Side.memSide pkt).2 = [])
    ∧ (∀ l1 w l2, inp.writes = l1 ++ w :: l2 →
        covers w.pkt pkt = true →
        (∀ u ∈ l2, u.pkt.intersect pkt = false) →
        (probeFunctional blkSize inp mem Side.memSide pkt).1.data
          = (List.range pkt.size).map
              (fun i => w.pkt.data.getD (pkt.addr + i - w.pkt.addr) 0)
        ∧ (probeFunctional blkSize inp mem Side.memSide pkt).1.result
            = PResult.Success
        ∧ (probeFunctional blkSize inp mem Side.memSide pkt).2 = []) := by
  have hfr := handleAccessF_frame blkSize inp.blk pkt
  refine ⟨fun b hb htg hwr => ?_, fun m l1 t l2 hm ht hc hl2 hwr => ?_,
    fun l1 w l2 hw hc hl2 => ?_⟩
  · -- Block Store hit, no overlapping pending write
    have hp1 : handleAccessF blkSize inp.blk pkt
        = { pkt with
            data := (List.range pkt.size).map
              (fun i => b.data.getD (pkt.addr % blkSize + i) 0),
            result := PResult.Success } := by
      have hr : pkt.cmd.isRead = true := by rw [hcmd]; rfl
      rw [hb]
      simp [handleAccessF, hunc, hr]
    have htl : ∀ u ∈ mshrTargets inp.mshr, u.intersect pkt = false := by
      cases hm : inp.mshr with
      | none => intro u hu; simp [mshrTargets] at hu
      | some m =>
        intro u hu
        simp only [mshrTargets] at hu
        exact htg m hm u hu
    have hfold1 : (mshrTargets inp.mshr).foldl fixStep
        (handleAccessF blkSize inp.blk pkt)
        = handleAccessF blkSize inp.blk pkt := by
      refine foldl_fixStep_id _ _ (fun u hu => ?_)
      rw [intersect_eq_of_frame u pkt _ hfr.1 hfr.2.1]
      exact htl u hu
    have hfold2 : (inp.writes.map (fun x => x.pkt)).foldl fixStep
        (handleAccessF blkSize inp.blk pkt)
        = handleAccessF blkSize inp.blk pkt := by
      refine foldl_fixStep_id _ _ (fun u hu => ?_)
      rw [intersect_eq_of_frame u pkt _ hfr.1 hfr.2.1]
      rcases List.mem_map.mp hu with ⟨x, hx, rfl⟩
      exact hwr x hx
    refine probeFunctional_post blkSize inp mem pkt _ hcmd hunc ?_ rfl
    rw [hfold1, hfold2, hp1]
  · -- served from the last overlapping Miss Entry target
    have htl : mshrTargets inp.mshr = l1 ++ t :: l2 := by
      rw [hm]
      simpa [mshrTargets] using ht
    have hcp1 : covers t (handleAccessF blkSize inp.blk pkt) = true := by
      rw [covers_eq_of_frame t pkt _ hfr.1 hfr.2.1]
      exact hc
    have hpos1 : 0 < (handleAccessF blkSize inp.blk pkt).size := by
      rw [hfr.2.1]
      exact hpos
    have hserve := foldl_fixStep_serves l1 l2 t
      (handleAccessF blkSize inp.blk pkt) hcp1 hpos1
      (fun u hu => by
        rw [intersect_eq_of_frame u pkt _ hfr.1 hfr.2.1]
        exact hl2 u hu)
    have hp2a : ((l1 ++ t :: l2).foldl fixStep
        (handleAccessF blkSize inp.blk pkt)).addr = pkt.addr :=
      (foldl_fixStep_addr _ _).trans hfr.1
    have hp2s : ((l1 ++ t :: l2).foldl fixStep
        (handleAccessF blkSize inp.blk pkt)).size = pkt.size :=
      (foldl_fixStep_size _ _).trans hfr.2.1
    have hwfold : (inp.writes.map (fun x => x.pkt)).foldl fixStep
        ((l1 ++ t :: l2).foldl fixStep (handleAccessF blkSize inp.blk pkt))
        = (l1 ++ t :: l2).foldl fixStep
            (handleAccessF blkSize inp.blk pkt) := by
      refine foldl_fixStep_id _ _ (fun u hu => ?_)
      rw [intersect_eq_of_frame u pkt _ hp2a hp2s]
      rcases List.mem_map.mp hu with ⟨x, hx, rfl⟩
      exact hwr x hx
    have hpost := probeFunctional_post blkSize inp mem pkt
      ((l1 ++ t :: l2).foldl fixStep (handleAccessF blkSize inp.blk pkt))
      hcmd hunc (by rw [htl, hwfold]) hserve.2
    rw [hfr.1, hfr.2.1] at hserve
    exact ⟨by rw [hpost]; exact hserve.1, by rw [hpost]; exact hserve.2,
      by rw [hpost]⟩
  · -- served from the last overlapping pending writeback entry
    have hba : ((mshrTargets inp.mshr).foldl fixStep
        (handleAccessF blkSize inp.blk pkt)).addr = pkt.addr :=
      (foldl_fixStep_addr _ _).trans hfr.1
    have hbs : ((mshrTargets inp.mshr).foldl fixStep
        (handleAccessF blkSize inp.blk pkt)).size = pkt.size :=
      (foldl_fixStep_size _ _).trans hfr.2.1
    have hmap : inp.writes.map (fun x => x.pkt)
        = l1.map (fun x => x.pkt) ++ w.pkt :: l2.map (fun x => x.pkt) := by
      rw [hw]
      simp
    have hcov : covers w.pkt ((mshrTargets inp.mshr).foldl fixStep
        (handleAccessF blkSize inp.blk pkt)) = true := by
      rw [covers_eq_of_frame w.pkt pkt _ hba hbs]
      exact hc
    have hposb : 0 < ((mshrTargets inp.mshr).foldl fixStep
        (handleAccessF blkSize inp.blk pkt)).size := by
      rw [hbs]
      exact hpos
    have hserve := foldl_fixStep_serves (l1.map (fun x => x.pkt))
      (l2.map (fun x => x.pkt)) w.pkt
      ((mshrTargets inp.mshr).foldl fixStep
        (handleAccessF blkSize inp.blk pkt)) hcov hposb
      (fun u hu => by
        rw [intersect_eq_of_frame u pkt _ hba hbs]
        rcases List.mem_map.mp hu with ⟨x, hx, rfl⟩
        exact hl2 x hx)
    have hpost := probeFunctional_post blkSize inp mem pkt
      ((l1.map (fun x => x.pkt) ++ w.pkt :: l2.map (fun x => x.pkt)).foldl
        fixStep ((mshrTargets inp.mshr).foldl fixStep
          (handleAccessF blkSize inp.blk pkt)))
      hcmd hunc (by rw [hmap]) hserve.2
    rw [hba, hbs] at hserve
    exact ⟨by rw [hpost]; exact hserve.1, by rw [hpost]; exact hserve.2,
      by rw [hpost]⟩

def probeTgt : Pkt :=
  { cmd := Command.WriteReq, addr := 0, size := 8, flags := noFlags,
    result := PResult.Unknown, uncacheable := false, senderState := none,
    data := [10, 11, 12, 13, 14, 15, 16, 17] }

def probeMshr : MSHR :=
  { inService := true, pkt := probeTgt, targets := [probeTgt] }

def probeInp : ProbeInput :=
  { blk := none, mshr := some probeMshr, writes := [],
    otherFunc := fun p => p }

def probeRd : Pkt :=
  { cmd := Command.ReadReq, addr := 2, size := 2, flags := noFlags,
    result := PResult.Unknown, uncacheable := false, senderState := none,
    data := [0, 0] }

/-- Witness for C6 at a concrete input: a functional read of 2 bytes at
address 2 that merges with an in-flight full-line write observes that
write's bytes. -/
theorem claim6_witness :
    (probeFunctional 8 probeInp (fun _ => 0) Side.memSide probeRd).1.data
      = (List.range probeRd.size).map
          (fun i => probeTgt.data.getD (probeRd.addr + i - probeTgt.addr) 0)
    ∧ (probeFunctional 8 probeInp (fun _ => 0) Side.memSide probeRd).1.result
        = PResult.Success
    ∧ (probeFunctional 8 probeInp (fun _ => 0) Side.memSide probeRd).2 = [] :=
  (claim6_functional_probe_roundtrip 8 probeInp (fun _ => 0) probeRd rfl rfl
    (by decide)).2.1 probeMshr [] probeTgt [] rfl rfl (by decide)
    (by intro u hu; simp at hu) (by intro x hx; simp [probeInp] at hx)

end M5
